import Mathlib

/-
Verification of the Qlik Sense data-retention controller (src/main.py).

The retention evaluator `stale_apps`, the per-artifact reclamation routine
`drop_data_from_app`, and the batch truncation loop of `__main__` are embedded
shallowly below:

* time instants are integers of microseconds since the Unix epoch; `now` is an
  explicit parameter standing for `datetime.utcnow()` read at entry;
* Python float arithmetic on `qFileSize / 1024 / 1024` is modelled over `ℚ`
  (division of an integer by a power of two is exact in binary floats, and
  Python's `round(x, 2)` rounds half to even);
* a raised exception is modelled as `none` / `Except.error`;
* the websocket server behind `_communicate` is modelled as the list of the
  outcomes of the successive request/response exchanges.
-/

attribute [local semireducible] Rat.mul Rat.inv Rat.add Rat.sub

/-- Values the `qMeta.published` field may carry (booleans or other
truthy/falsy-like encodings such as ints and strings). -/
inductive PyVal where
  | bool : Bool → PyVal
  | int : Int → PyVal
  | str : String → PyVal
deriving DecidableEq

/-- Python `==` on the values of `PyVal`: `False == 0`, `True == 1`, strings
compare by value, other cross-kind comparisons are unequal. -/
def pyEq : PyVal → PyVal → Bool
  | PyVal.bool a, PyVal.bool b => a == b
  | PyVal.bool a, PyVal.int n => (if a then (1 : Int) else 0) == n
  | PyVal.int n, PyVal.bool b => n == (if b then (1 : Int) else 0)
  | PyVal.int n, PyVal.int m => n == m
  | PyVal.str s, PyVal.str t => s == t
  | _, _ => false

/-- Gregorian leap-year test. -/
def isLeap (y : Nat) : Bool := y % 4 == 0 && (y % 100 != 0 || y % 400 == 0)

/-- Number of days in a month, as `datetime` validates it. -/
def daysInMonth (y m : Nat) : Nat :=
  if m == 2 then (if isLeap y then 29 else 28)
  else if m == 4 || m == 6 || m == 9 || m == 11 then 30
  else 31

/-- Days from 1970-01-01 to the given proleptic-Gregorian date (year ≥ 1). -/
def daysFromCivil (y m d : Nat) : Int :=
  let yy : Nat := if m ≤ 2 then y - 1 else y
  let era : Nat := yy / 400
  let yoe : Nat := yy % 400
  let mp : Nat := if m ≤ 2 then m + 9 else m - 3
  let doy : Nat := (153 * mp + 2) / 5 + d - 1
  let doe : Nat := yoe * 365 + yoe / 4 - yoe / 100 + doy
  (era * 146097 + doe : Int) - 719468

/-- Microseconds in one day; `timedelta(days=n)` is `n * usPerDay`. -/
def usPerDay : Int := 86400000000

/-- A civil datetime as microseconds since the Unix epoch. -/
def toEpochMicros (y m d hh mi ss frac : Nat) : Int :=
  daysFromCivil y m d * usPerDay
    + (hh * 3600000000 + mi * 60000000 + ss * 1000000 + frac : Nat)

/-- Numeric value of a decimal digit character. -/
def digitVal (c : Char) : Nat := c.toNat - 48

/-- Consume exactly `n` decimal digits (strptime `%Y` uses four). -/
def takeDigits : Nat → List Char → Option (Nat × List Char)
  | 0, cs => some (0, cs)
  | n + 1, c :: cs =>
      if c.isDigit then
        (takeDigits n cs).map (fun p => (digitVal c * 10 ^ n + p.1, p.2))
      else none
  | _ + 1, [] => none

/-- strptime `%m`: ordered alternation `1[0-2]|0[1-9]|[1-9]`. -/
def parseMonth : List Char → Option (Nat × List Char)
  | [] => none
  | c :: cs =>
      if c == '1' then
        match cs with
        | d :: rest =>
            if 48 ≤ d.toNat ∧ d.toNat ≤ 50 then some (10 + digitVal d, rest)
            else some (1, cs)
        | [] => some (1, [])
      else if c == '0' then
        match cs with
        | d :: rest =>
            if 49 ≤ d.toNat ∧ d.toNat ≤ 57 then some (digitVal d, rest)
            else none
        | [] => none
      else if 50 ≤ c.toNat ∧ c.toNat ≤ 57 then some (digitVal c, cs)
      else none

/-- strptime `%d`: ordered alternation `3[01]|[1-2]\d|0[1-9]|[1-9]`. -/
def parseDay : List Char → Option (Nat × List Char)
  | [] => none
  | c :: cs =>
      if c == '3' then
        match cs with
        | d :: rest =>
            if d == '0' || d == '1' then some (30 + digitVal d, rest)
            else some (3, cs)
        | [] => some (3, [])
      else if c == '1' || c == '2' then
        match cs with
        | d :: rest =>
            if d.isDigit then some (digitVal c * 10 + digitVal d, rest)
            else some (digitVal c, cs)
        | [] => some (digitVal c, [])
      else if c == '0' then
        match cs with
        | d :: rest =>
            if 49 ≤ d.toNat ∧ d.toNat ≤ 57 then some (digitVal d, rest)
            else none
        | [] => none
      else if 52 ≤ c.toNat ∧ c.toNat ≤ 57 then some (digitVal c, cs)
      else none

/-- strptime `%H`: ordered alternation `2[0-3]|[0-1]\d|\d`. -/
def parseHour : List Char → Option (Nat × List Char)
  | [] => none
  | c :: cs =>
      if c == '2' then
        match cs with
        | d :: rest =>
            if 48 ≤ d.toNat ∧ d.toNat ≤ 51 then some (20 + digitVal d, rest)
            else some (2, cs)
        | [] => some (2, [])
      else if c == '0' || c == '1' then
        match cs with
        | d :: rest =>
            if d.isDigit then some (digitVal c * 10 + digitVal d, rest)
            else some (digitVal c, cs)
        | [] => some (digitVal c, [])
      else if c.isDigit then some (digitVal c, cs)
      else none

/-- strptime `%M`: ordered alternation `[0-5]\d|\d`. -/
def parseMinute : List Char → Option (Nat × List Char)
  | [] => none
  | c :: cs =>
      if 48 ≤ c.toNat ∧ c.toNat ≤ 53 then
        match cs with
        | d :: rest =>
            if d.isDigit then some (digitVal c * 10 + digitVal d, rest)
            else some (digitVal c, cs)
        | [] => some (digitVal c, [])
      else if c.isDigit then some (digitVal c, cs)
      else none

/-- strptime `%S`: ordered alternation `6[0-1]|[0-5]\d|\d`. -/
def parseSecond : List Char → Option (Nat × List Char)
  | [] => none
  | c :: cs =>
      if c == '6' then
        match cs with
        | d :: rest =>
            if d == '0' || d == '1' then some (60 + digitVal d, rest)
            else some (6, cs)
        | [] => some (6, [])
      else if 48 ≤ c.toNat ∧ c.toNat ≤ 53 then
        match cs with
        | d :: rest =>
            if d.isDigit then some (digitVal c * 10 + digitVal d, rest)
            else some (digitVal c, cs)
        | [] => some (digitVal c, [])
      else if c.isDigit then some (digitVal c, cs)
      else none

/-- Greedily consume up to `n` more digits of the fractional-second field,
returning the accumulated value, the count consumed so far, and the rest. -/
def fracLoop : Nat → Nat → Nat → List Char → Nat × Nat × List Char
  | 0, acc, k, cs => (acc, k, cs)
  | n + 1, acc, k, cs =>
      match cs with
      | c :: rest =>
          if c.isDigit then fracLoop n (acc * 10 + digitVal c) (k + 1) rest
          else (acc, k, c :: rest)
      | [] => (acc, k, [])

/-- strptime `%f`: one to six digits, right-padded with zeros to microseconds. -/
def parseFrac (cs : List Char) : Option (Nat × List Char) :=
  match fracLoop 6 0 0 cs with
  | (_, 0, _) => none
  | (v, k, rest) => some (v * 10 ^ (6 - k), rest)

/-- Consume one expected literal character of the format string. -/
def expectChar (c : Char) : List Char → Option (List Char)
  | d :: cs => if d == c then some cs else none
  | [] => none

/-- `datetime.strptime(s, '%Y-%m-%dT%H:%M:%S.%fZ')` as microseconds since the
Unix epoch; `none` models a raised `ValueError` (no match, trailing data, or a
date/second the `datetime` constructor rejects). -/
def parseQlikTime (s : String) : Option Int := do
  let cs0 := s.toList
  let (y, cs1) ← takeDigits 4 cs0
  let cs2 ← expectChar '-' cs1
  let (m, cs3) ← parseMonth cs2
  let cs4 ← expectChar '-' cs3
  let (d, cs5) ← parseDay cs4
  let cs6 ← expectChar 'T' cs5
  let (hh, cs7) ← parseHour cs6
  let cs8 ← expectChar ':' cs7
  let (mi, cs9) ← parseMinute cs8
  let cs10 ← expectChar ':' cs9
  let (ss, cs11) ← parseSecond cs10
  let cs12 ← expectChar '.' cs11
  let (frac, cs13) ← parseFrac cs12
  let cs14 ← expectChar 'Z' cs13
  if cs14 = [] ∧ 1 ≤ y ∧ d ≤ daysInMonth y m ∧ ss ≤ 59 then
    pure (toEpochMicros y m d hh mi ss frac)
  else none

/-- Round half to even to an integer (Python `round` tie behavior). -/
def rndHalfEven (q : ℚ) : Int :=
  let f : Int := q.floor
  let r : ℚ := q - f
  if r < 1 / 2 then f
  else if 1 / 2 < r then f + 1
  else if f % 2 = 0 then f else f + 1

/-- Python `round(q, 2)`. -/
def round2 (q : ℚ) : ℚ := (rndHalfEven (q * 100) : ℚ) / 100

/-- One entry of the `qDocList` catalog, with the fields `stale_apps` reads.
`published` is the raw `qMeta.published` value; `qLastReloadTime` is the
optional timestamp string. -/
structure Doc where
  qDocName : String
  qDocId : String
  published : PyVal
  qFileSize : Nat
  qLastReloadTime : Option String
deriving DecidableEq

/-- One element of the list `stale_apps` returns: the dict
`{name, id, size_mb, last_reload}`. -/
structure StaleCandidate where
  name : String
  id : String
  size_mb : ℚ
  last_reload : Int
deriving DecidableEq

/-- `round(doc['qFileSize'] / 1024 / 1024, 2)`. -/
def size_mb_of (doc : Doc) : ℚ := round2 ((doc.qFileSize : ℚ) / 1024 / 1024)

/-- The reload-time computation of `stale_apps`: the field is parsed only when
truthy (present and non-empty); otherwise `datetime.fromtimestamp(0)` is used,
which is the Unix epoch on a UTC-configured host. `none` models a raised
`ValueError` from `strptime`. -/
def reloadTimeOf (doc : Doc) : Option Int :=
  match doc.qLastReloadTime with
  | some s => if s == "" then some 0 else parseQlikTime s
  | none => some 0

/-- The dict appended for a stale document. -/
def mkCandidate (doc : Doc) (reload_time : Int) : StaleCandidate :=
  ⟨doc.qDocName, doc.qDocId, size_mb_of doc, reload_time⟩

/-- The publication filter `doc['qMeta']['published'] in (False, include_published)`
(Python tuple membership, i.e. `==` against each element). -/
def pubPass (published : PyVal) (include_published : Bool) : Bool :=
  pyEq published (PyVal.bool false) || pyEq published (PyVal.bool include_published)

/-- The per-document loop of `stale_apps`, with the threshold precomputed. -/
def staleLoop (threshold : Int) (min_mb : ℚ) (include_published : Bool) :
    List Doc → Option (List StaleCandidate)
  | [] => some []
  | doc :: rest =>
      if pubPass doc.published include_published then
        match reloadTimeOf doc with
        | none => none
        | some reload_time =>
            if reload_time < threshold then
              if min_mb < size_mb_of doc then
                (staleLoop threshold min_mb include_published rest).map
                  (fun apps => mkCandidate doc reload_time :: apps)
              else staleLoop threshold min_mb include_published rest
            else staleLoop threshold min_mb include_published rest
      else staleLoop threshold min_mb include_published rest

/-- `stale_apps(app_list, days_stale, min_mb, include_published)` with the
instant `now` (read via `datetime.utcnow()` in the source) made explicit;
`none` models an uncaught `ValueError` from timestamp parsing. -/
def stale_apps (now : Int) (app_list : List Doc) (days_stale : Int := 180)
    (min_mb : ℚ := 1) (include_published : Bool := false) :
    Option (List StaleCandidate) :=
  staleLoop (now - days_stale * usPerDay) min_mb include_published app_list

/-- JSON-like values carried in RPC replies. -/
inductive J where
  | null : J
  | jbool : Bool → J
  | num : Int → J
  | str : String → J
  | obj : List (String × J) → J

/-- Python `reply[key]` on a dict, `none` modelling a raised
`KeyError`/`TypeError`. -/
def jGet : J → String → Option J
  | J.obj fields, k => fields.lookup k
  | _, _ => none

/-- `response['result']['qReturn']`. -/
def qReturnOf (reply : J) : Option J :=
  (jGet reply "result").bind (fun r => jGet r "qReturn")

/-- `response['result']['qReturn']['qType']`. -/
def qTypeOf (reply : J) : Option J :=
  (qReturnOf reply).bind (fun r => jGet r "qType")

/-- `response['result']['qReturn']['qHandle']`. -/
def qHandleOf (reply : J) : Option J :=
  (qReturnOf reply).bind (fun r => jGet r "qHandle")

/-- One JSON-RPC request as built by `drop_data_from_app`. -/
structure Call where
  handle : J
  method : String
  params : List (String × J)

/-- The `OpenDoc` request of `drop_data_from_app` (global handle `-1`,
`qNoData: true`). -/
def openCall (doc_id : String) : Call :=
  ⟨J.num (-1), "OpenDoc", [("qDocName", J.str doc_id), ("qNoData", J.jbool true)]⟩

/-- The `DoSave` request of `drop_data_from_app` (contextual handle, empty
`qFileName`). -/
def saveCall (handle : J) : Call :=
  ⟨handle, "DoSave", [("qFileName", J.str "")]⟩

/-- Observable outcome of one `drop_data_from_app` run: the requests handed to
`_communicate`, whether `websocket.close()` was reached, and the returned
response (`Except.error` modelling an uncaught exception). -/
structure DropResult where
  sent : List Call
  closed : Bool
  result : Except String J

/-- `drop_data_from_app(host, doc_id)`, with the server modelled as the list of
outcomes of the successive `_communicate` exchanges (an exhausted list models a
connection failure on the next exchange). Mirrors the source control flow:
connect, send `OpenDoc`, inspect `qType`, on `'Doc'` send `DoSave` with the
reply's `qHandle`, close, return — with no handler around the exchanges, so an
exchange error or a reply lacking the expected shape propagates before
`websocket.close()` is reached. -/
def drop_data_from_app (server : List (Except String J)) (doc_id : String) :
    DropResult :=
  match server with
  | [] => ⟨[openCall doc_id], false, Except.error "ConnectionError"⟩
  | Except.error e :: _ => ⟨[openCall doc_id], false, Except.error e⟩
  | Except.ok response :: rest =>
      match qTypeOf response with
      | none => ⟨[openCall doc_id], false, Except.error "KeyError"⟩
      | some qType =>
          match qType with
          | J.str t =>
              if t == "Doc" then
                match qHandleOf response with
                | none => ⟨[openCall doc_id], false, Except.error "KeyError"⟩
                | some h =>
                    match rest with
                    | [] =>
                        ⟨[openCall doc_id, saveCall h], false,
                          Except.error "ConnectionError"⟩
                    | Except.error e :: _ =>
                        ⟨[openCall doc_id, saveCall h], false, Except.error e⟩
                    | Except.ok resp2 :: _ =>
                        ⟨[openCall doc_id, saveCall h], true, Except.ok resp2⟩
              else ⟨[openCall doc_id], true, Except.ok response⟩
          | _ => ⟨[openCall doc_id], true, Except.ok response⟩

/-- The truncation loop of `__main__`: invoke `drop_data_from_app` once per
candidate id, strictly sequentially; there is no handler around the call, so an
uncaught exception aborts the loop. Returns the ids for which a reclamation was
attempted and whether the loop ran to completion. -/
def truncateBatch : List (String × List (Except String J)) → List String × Bool
  | [] => ([], true)
  | (doc_id, server) :: rest =>
      match (drop_data_from_app server doc_id).result with
      | Except.ok _ =>
          let r := truncateBatch rest
          (doc_id :: r.1, r.2)
      | Except.error _ => ([doc_id], false)

/-- 2021-01-01T00:00:00Z in microseconds since the epoch; 200 days before the
evaluation instant used in the concrete scenarios below. -/
def reload200 : String := "2021-01-01T00:00:00.000000Z"

/-- Evaluation instant for the concrete scenarios: 2021-07-20T00:00:00Z. -/
def nowJul20 : Int := 1626739200000000

/-- Scenario artifact A: unpublished, 2 MiB, reloaded 200 days before `nowJul20`. -/
def docA : Doc := ⟨"A", "1", PyVal.bool false, 2097152, some reload200⟩

/-- Scenario artifact B: published, 2 MiB, reloaded 200 days before `nowJul20`. -/
def docB : Doc := ⟨"B", "2", PyVal.bool true, 2097152, some reload200⟩

/-- Scenario artifact C: unpublished, 500 KiB, reloaded 200 days before `nowJul20`. -/
def docC : Doc := ⟨"C", "3", PyVal.bool false, 512000, some reload200⟩

/-- An unpublished 2 MiB artifact with no last-reload timestamp on record. -/
def docM : Doc := ⟨"M", "9", PyVal.bool false, 2097152, none⟩

/-- An unpublished never-reloaded artifact of 1048577 bytes: one byte above the
exact 1 MiB floor, whose size_mb still rounds to 1.00. -/
def docD : Doc := ⟨"D", "4", PyVal.bool false, 1048577, none⟩

/-- An unpublished-by-intent artifact whose `published` metadata is the
non-boolean truthy value `"yes"`, 2 MiB, never reloaded. -/
def docE : Doc := ⟨"E", "5", PyVal.str "yes", 2097152, none⟩

/-- A server whose `OpenDoc` reply is well-formed but reports a non-`Doc`
object type, i.e. the open step failed gracefully. -/
def okOpenFailServer : List (Except String J) :=
  [Except.ok (J.obj [("result", J.obj [("qReturn", J.obj [("qType", J.str "App")])])])]

/-- A well-formed `OpenDoc` reply with type `Doc` and session handle `7`. -/
def replyDoc7 : J :=
  J.obj [("result", J.obj [("qReturn", J.obj [("qType", J.str "Doc"), ("qHandle", J.num 7)])])]

/-- C2: on the three-artifact scenario catalog with policy
`days_stale = 180, min_mb = 1, include_published = false`, `stale_apps` returns
exactly the one-element list containing A: B is excluded by the publication
filter and C by the strict size floor. -/
theorem stale_apps_end_to_end :
    stale_apps nowJul20 [docA, docB, docC] 180 1 false =
      some [mkCandidate docA 1609459200000000] := by decide

/-- C7 amended: `drop_data_from_app` reaches `websocket.close()` exactly on the
exit paths where no exception propagates (a completed save, or an `OpenDoc`
reply whose type is not `Doc`); a connection error during an exchange or a
reply lacking the expected result shape propagates before the close, leaving
the connection unclosed. -/
theorem drop_data_closes_iff_no_exception (server : List (Except String J))
    (doc_id : String) :
    (drop_data_from_app server doc_id).closed = true ↔
      ∃ r, (drop_data_from_app server doc_id).result = Except.ok r := by
  match server with
  | [] => simp [drop_data_from_app]
  | Except.error e :: rest => simp [drop_data_from_app]
  | Except.ok response :: rest =>
      cases hqt : qTypeOf response with
      | none => simp [drop_data_from_app, hqt]
      | some qType =>
          cases qType with
          | null => simp [drop_data_from_app, hqt]
          | jbool b => simp [drop_data_from_app, hqt]
          | num n => simp [drop_data_from_app, hqt]
          | obj fields => simp [drop_data_from_app, hqt]
          | str t =>
              by_cases ht : (t == "Doc") = true
              · cases hqh : qHandleOf response with
                | none => simp [drop_data_from_app, hqt, ht, hqh]
                | some h =>
                    cases rest with
                    | nil => simp [drop_data_from_app, hqt, ht, hqh]
                    | cons r2 rest2 =>
                        cases r2 <;> simp [drop_data_from_app, hqt, ht, hqh]
              · rw [Bool.not_eq_true] at ht
                simp [drop_data_from_app, hqt, ht]

/-- C7 counterexample: a single exchange whose reply is a JSON object lacking
the expected `result` key raises before `websocket.close()` is reached, so the
connection is left unclosed on that exit path. -/
theorem drop_data_unclosed_on_malformed_reply :
    (drop_data_from_app [Except.ok (J.obj [])] "app1").closed = false := rfl

/-- C9: when the `OpenDoc` reply declares type `Doc` and carries a session
handle, exactly one `DoSave` follows, addressed to that same handle with an
empty `qFileName`; when the declared type is anything other than `Doc`, no
`DoSave` is issued. -/
theorem drop_data_save_protocol (reply : J) (rest : List (Except String J))
    (doc_id : String) :
    (∀ h, qTypeOf reply = some (J.str "Doc") → qHandleOf reply = some h →
      (drop_data_from_app (Except.ok reply :: rest) doc_id).sent =
        [openCall doc_id, saveCall h])
    ∧ (qTypeOf reply ≠ some (J.str "Doc") →
      (drop_data_from_app (Except.ok reply :: rest) doc_id).sent =
        [openCall doc_id]) := by
  constructor
  · intro h hty hh
    cases rest with
    | nil => simp [drop_data_from_app, hty, hh]
    | cons r2 rest2 => cases r2 <;> simp [drop_data_from_app, hty, hh]
  · intro hne
    cases hqt : qTypeOf reply with
    | none => simp [drop_data_from_app, hqt]
    | some q =>
        cases q with
        | str t =>
            have htne : t ≠ "Doc" := by
              intro hcontra
              rw [hqt, hcontra] at hne
              exact hne rfl
            have ht : (t == "Doc") = false := beq_eq_false_iff_ne.mpr htne
            simp [drop_data_from_app, hqt, ht]
        | null => simp [drop_data_from_app, hqt]
        | jbool b => simp [drop_data_from_app, hqt]
        | num n => simp [drop_data_from_app, hqt]
        | obj fields => simp [drop_data_from_app, hqt]

/-- C9 witness: on a concrete well-formed `Doc` reply with handle `7`, the sent
requests are exactly the `OpenDoc` call followed by one `DoSave` on handle `7`. -/
theorem drop_data_save_protocol_witness :
    (drop_data_from_app [Except.ok replyDoc7] "x").sent =
      [openCall "x", saveCall (J.num 7)] :=
  (drop_data_save_protocol replyDoc7 [] "x").1 (J.num 7) rfl rfl

/-- C8 amended: when every artifact's reclamation returns without raising
(including graceful per-item open failures, where `OpenDoc` yields a non-`Doc`
type), the batch attempts every identifier in order and completes; but an
exception raised inside `drop_data_from_app` (connection error or malformed
reply) propagates out of the loop, so the remaining identifiers are not
attempted. -/
theorem truncateBatch_continues_without_exception
    (entries : List (String × List (Except String J)))
    (hok : ∀ e ∈ entries, ∃ r, (drop_data_from_app e.2 e.1).result = Except.ok r) :
    truncateBatch entries = (entries.map Prod.fst, true) := by
  induction entries with
  | nil => rfl
  | cons e rest ih =>
      obtain ⟨did, srv⟩ := e
      obtain ⟨r, hr⟩ := hok (did, srv) (List.mem_cons_self _ _)
      have ihr := ih (fun x hx => hok x (List.mem_cons_of_mem _ hx))
      simp only [truncateBatch, hr, ihr, List.map_cons]

/-- C8 witness: a singleton batch whose only reclamation fails gracefully at
the open step is attempted and the loop completes. -/
theorem truncateBatch_continues_witness :
    truncateBatch [("a", okOpenFailServer)] = (["a"], true) :=
  truncateBatch_continues_without_exception [("a", okOpenFailServer)] (by
    intro e he
    rw [List.mem_singleton] at he
    subst he
    exact ⟨J.obj [("result", J.obj [("qReturn", J.obj [("qType", J.str "App")])])], rfl⟩)

/-- C8 counterexample: with three identifiers where the second fails at the
open step with a connection error, the loop aborts after the second attempt and
the third identifier is never attempted. -/
theorem truncateBatch_abort_counterexample :
    truncateBatch [("1", okOpenFailServer), ("2", []), ("3", okOpenFailServer)] =
      (["1", "2"], false) := rfl

/-- The head document of the loop is processed identically whether its
timestamp field holds the empty string or is absent: both are falsy, so
neither is parsed and both normalize to the epoch. -/
lemma staleLoop_empty_ts (t : Int) (m : ℚ) (ip : Bool) (nm did : String)
    (pub : PyVal) (size : Nat) :
    ∀ (pre post : List Doc),
      staleLoop t m ip (pre ++ ⟨nm, did, pub, size, some ""⟩ :: post) =
        staleLoop t m ip (pre ++ ⟨nm, did, pub, size, none⟩ :: post) := by
  intro pre
  induction pre with
  | nil => intro post; rfl
  | cons d pre ih =>
      intro post
      simp only [List.cons_append, staleLoop, List.append_eq]
      rw [ih post]

/-- C10: an artifact whose last-reload field is present but equal to the empty
string is treated by `stale_apps` exactly like one with no timestamp at all: the
string is never parsed (the truthiness test fails), no parse error can arise,
and the artifact's reload instant is normalized to the epoch. -/
theorem stale_apps_empty_timestamp (now days : Int) (m : ℚ) (ip : Bool)
    (pre post : List Doc) (nm did : String) (pub : PyVal) (size : Nat) :
    stale_apps now (pre ++ ⟨nm, did, pub, size, some ""⟩ :: post) days m ip =
      stale_apps now (pre ++ ⟨nm, did, pub, size, none⟩ :: post) days m ip :=
  staleLoop_empty_ts (now - days * usPerDay) m ip nm did pub size pre post

/-- C4 amended: an artifact with no last-reload timestamp is normalized to the
Unix epoch and is classified stale whenever the staleness threshold
`now - days_stale days` lies strictly after the epoch; for `days_stale` so
large that the threshold reaches the epoch or earlier, the artifact is
excluded, so the missing timestamp is infinitely stale only in that regime. -/
theorem stale_apps_missing_timestamp (now days : Int) (m : ℚ) (ip : Bool)
    (doc : Doc)
    (hts : doc.qLastReloadTime = none)
    (hpub : pubPass doc.published ip = true)
    (hsize : m < size_mb_of doc)
    (hepoch : days * usPerDay < now) :
    stale_apps now [doc] days m ip = some [mkCandidate doc 0] := by
  have hrt : reloadTimeOf doc = some 0 := by simp [reloadTimeOf, hts]
  have ht : (0 : Int) < now - days * usPerDay := by omega
  simp [stale_apps, staleLoop, hpub, hrt, ht, hsize]

/-- C4 witness: the never-reloaded artifact `docM` is reported stale under the
default policy at the 2021 evaluation instant. -/
theorem stale_apps_missing_timestamp_witness :
    stale_apps nowJul20 [docM] 180 1 false = some [mkCandidate docM 0] :=
  stale_apps_missing_timestamp nowJul20 180 1 false docM rfl (by decide)
    (by decide) (by decide)

/-- C4 counterexample: with `days_stale = 18828` (the number of days between
the epoch and the evaluation instant), the staleness threshold is exactly the
epoch, and the never-reloaded artifact `docM` is excluded even though it passes
the publication and size filters — refuting classification as stale for every
`days_stale ≥ 0`. -/
theorem stale_apps_missing_timestamp_counterexample :
    stale_apps nowJul20 [docM] 18828 1 false = some [] := by decide

/-- C5 amended: an artifact passing the publication and staleness filters is
emitted iff its rounded `size_mb` is strictly greater than `min_mb`; in
particular one with `size_mb` exactly equal to `min_mb` is excluded, and a raw
size one byte larger is included only when the rounding moves `size_mb`
strictly above `min_mb` (a one-byte increase usually leaves the two-decimal
rounding, hence the verdict, unchanged). -/
theorem stale_apps_size_floor (now days : Int) (m : ℚ) (ip : Bool) (doc : Doc)
    (rt : Int)
    (hpub : pubPass doc.published ip = true)
    (hrt : reloadTimeOf doc = some rt)
    (hstale : rt < now - days * usPerDay) :
    stale_apps now [doc] days m ip =
      some (if m < size_mb_of doc then [mkCandidate doc rt] else []) := by
  by_cases hs : m < size_mb_of doc
  · simp [stale_apps, staleLoop, hpub, hrt, hstale, hs]
  · simp [stale_apps, staleLoop, hpub, hrt, hstale, hs]

/-- C5 witness: the 1048577-byte artifact `docD` passes publication and
staleness, and its emission is decided exactly by the strict rounded-size
comparison. -/
theorem stale_apps_size_floor_witness :
    stale_apps nowJul20 [docD] 180 1 false =
      some (if (1 : ℚ) < size_mb_of docD then [mkCandidate docD 0] else []) :=
  stale_apps_size_floor nowJul20 180 1 false docD 0 (by decide) rfl (by decide)

/-- C5 counterexample: `docD` is one byte above the exact 1 MiB floor, passes
the publication and staleness filters, yet is excluded under `min_mb = 1`
because `round(1048577/1024/1024, 2) = 1.00` is not strictly greater than 1 —
refuting the claim that one byte above the floor is included. -/
theorem stale_apps_size_floor_counterexample :
    stale_apps nowJul20 [docD] 180 1 false = some [] := by decide

/-- C6 amended: an artifact passing the staleness and size filters is passed
through the publication filter iff its raw `published` value is Python-equal to
`False` or Python-equal to the `include_published` flag — the source's
`published in (False, include_published)` — so with `include_published = true`
a non-boolean truthy encoding unequal to `True` is still excluded. -/
theorem stale_apps_publication_filter (now days : Int) (m : ℚ) (ip : Bool)
    (doc : Doc) (rt : Int)
    (hrt : reloadTimeOf doc = some rt)
    (hstale : rt < now - days * usPerDay)
    (hsize : m < size_mb_of doc) :
    stale_apps now [doc] days m ip =
      some (if pyEq doc.published (PyVal.bool false)
              || pyEq doc.published (PyVal.bool ip)
            then [mkCandidate doc rt] else []) := by
  by_cases hp : (pyEq doc.published (PyVal.bool false)
      || pyEq doc.published (PyVal.bool ip)) = true
  · have hp' : pubPass doc.published ip = true := hp
    simp [stale_apps, staleLoop, hp', hrt, hstale, hsize, hp]
  · have hp' : pubPass doc.published ip = false := by
      rw [show pubPass doc.published ip
            = (pyEq doc.published (PyVal.bool false)
              || pyEq doc.published (PyVal.bool ip)) from rfl]
      rwa [Bool.not_eq_true] at hp
    rw [Bool.not_eq_true] at hp
    simp [stale_apps, staleLoop, hp', hp]

/-- C6 witness: the artifact `docE` with `published = "yes"` and
`include_published = true` passes the other filters, and its fate is decided by
the Python membership test, which rejects it. -/
theorem stale_apps_publication_filter_witness :
    stale_apps nowJul20 [docE] 180 1 true =
      some (if pyEq docE.published (PyVal.bool false)
              || pyEq docE.published (PyVal.bool true)
            then [mkCandidate docE 0] else []) :=
  stale_apps_publication_filter nowJul20 180 1 true docE 0 rfl (by decide)
    (by decide)

/-- C6 counterexample: with `include_published = true`, the stale, large
artifact `docE` whose `published` metadata is the truthy non-boolean `"yes"` is
excluded by `stale_apps` — refuting the claim that the filter passes every
artifact when `include_published` is true. -/
theorem stale_apps_publication_filter_counterexample :
    stale_apps nowJul20 [docE] 180 1 true = some [] := by decide

/-- Every candidate emitted by the evaluation loop passed the strict size
check, the staleness check against the precomputed threshold, and the
publication filter of some source document of the catalog. -/
lemma staleLoop_mem (t : Int) (m : ℚ) (ip : Bool) :
    ∀ (docs : List Doc) (l : List StaleCandidate),
      staleLoop t m ip docs = some l →
      ∀ c ∈ l, m < c.size_mb ∧ c.last_reload < t ∧
        ∃ doc ∈ docs, c = mkCandidate doc c.last_reload ∧
          (pyEq doc.published (PyVal.bool false) = true ∨ ip = true) := by
  intro docs
  induction docs with
  | nil =>
      intro l hl c hc
      simp only [staleLoop, Option.some.injEq] at hl
      subst hl
      exact absurd hc (List.not_mem_nil c)
  | cons doc rest ih =>
      intro l hl c hc
      simp only [staleLoop] at hl
      by_cases hp : pubPass doc.published ip = true
      · rw [if_pos hp] at hl
        cases hrt : reloadTimeOf doc with
        | none => rw [hrt] at hl; exact absurd hl (by simp)
        | some rt =>
            simp only [hrt] at hl
            by_cases hlt : rt < t
            · rw [if_pos hlt] at hl
              by_cases hs : m < size_mb_of doc
              · rw [if_pos hs] at hl
                cases hr : staleLoop t m ip rest with
                | none => rw [hr] at hl; exact absurd hl (by simp)
                | some l' =>
                    rw [hr] at hl
                    simp only [Option.map_some', Option.some.injEq] at hl
                    subst hl
                    rcases List.mem_cons.mp hc with hceq | hcl
                    · subst hceq
                      refine ⟨hs, hlt, doc, List.mem_cons_self _ _, rfl, ?_⟩
                      cases ip with
                      | true => exact Or.inr rfl
                      | false =>
                          left
                          simpa [pubPass] using hp
                    · obtain ⟨hms, hmt, doc', hd', hcd, hpub⟩ := ih l' hr c hcl
                      exact ⟨hms, hmt, doc', List.mem_cons_of_mem _ hd', hcd, hpub⟩
              · rw [if_neg hs] at hl
                obtain ⟨hms, hmt, doc', hd', hcd, hpub⟩ := ih l hl c hc
                exact ⟨hms, hmt, doc', List.mem_cons_of_mem _ hd', hcd, hpub⟩
            · rw [if_neg hlt] at hl
              obtain ⟨hms, hmt, doc', hd', hcd, hpub⟩ := ih l hl c hc
              exact ⟨hms, hmt, doc', List.mem_cons_of_mem _ hd', hcd, hpub⟩
      · rw [if_neg hp] at hl
        obtain ⟨hms, hmt, doc', hd', hcd, hpub⟩ := ih l hl c hc
        exact ⟨hms, hmt, doc', List.mem_cons_of_mem _ hd', hcd, hpub⟩

/-- C1: every candidate returned by `stale_apps` simultaneously satisfies all
three filter conditions: its rounded `size_mb` strictly exceeds `min_mb`, its
normalized reload instant is strictly earlier than `now` minus `days_stale`
days, and it stems from a catalog document whose `published` value equals
`False` or for which `include_published` is true. -/
theorem stale_apps_invariant (now days : Int) (m : ℚ) (ip : Bool)
    (apps : List Doc) (l : List StaleCandidate)
    (hdays : 0 ≤ days) (hmin : 0 ≤ m)
    (hrun : stale_apps now apps days m ip = some l)
    (c : StaleCandidate) (hc : c ∈ l) :
    m < c.size_mb ∧ c.last_reload < now - days * usPerDay ∧
      ∃ doc ∈ apps, c = mkCandidate doc c.last_reload ∧
        (pyEq doc.published (PyVal.bool false) = true ∨ ip = true) :=
  staleLoop_mem (now - days * usPerDay) m ip apps l hrun c hc

/-- C1 witness: the single candidate produced on the concrete scenario catalog
satisfies all three filter invariants. -/
theorem stale_apps_invariant_witness :
    (1 : ℚ) < (mkCandidate docA 1609459200000000).size_mb ∧
      (mkCandidate docA 1609459200000000).last_reload < nowJul20 - 180 * usPerDay ∧
      ∃ doc ∈ [docA, docB, docC],
        mkCandidate docA 1609459200000000 =
          mkCandidate doc (mkCandidate docA 1609459200000000).last_reload ∧
        (pyEq doc.published (PyVal.bool false) = true ∨ false = true) :=
  stale_apps_invariant nowJul20 180 1 false [docA, docB, docC]
    [mkCandidate docA 1609459200000000] (by decide) (by decide) (by decide)
    (mkCandidate docA 1609459200000000) (by decide)

/-- A document that passes the publication filter with
`include_published = False` is Python-equal to `False` and therefore also
passes it with `include_published = True`. -/
lemma pubPass_false_imp_true (p : PyVal) (h : pubPass p false = true) :
    pubPass p true = true := by
  have h' : pyEq p (PyVal.bool false) = true := by simpa [pubPass] using h
  simp [pubPass, h']

/-- Lowering the staleness threshold can only shrink the number of emitted
candidates (both runs assumed to finish without a parse error). -/
lemma staleLoop_threshold_mono (t1 t2 : Int) (m : ℚ) (ip : Bool) (hT : t2 ≤ t1) :
    ∀ (docs : List Doc) (l1 l2 : List StaleCandidate),
      staleLoop t1 m ip docs = some l1 → staleLoop t2 m ip docs = some l2 →
      l2.length ≤ l1.length := by
  intro docs
  induction docs with
  | nil =>
      intro l1 l2 h1 h2
      simp only [staleLoop, Option.some.injEq] at h1 h2
      subst h1
      subst h2
      exact Nat.le_refl _
  | cons doc rest ih =>
      intro l1 l2 h1 h2
      simp only [staleLoop] at h1 h2
      by_cases hp : pubPass doc.published ip = true
      · rw [if_pos hp] at h1 h2
        cases hrt : reloadTimeOf doc with
        | none => rw [hrt] at h1; exact absurd h1 (by simp)
        | some rt =>
            simp only [hrt] at h1 h2
            by_cases h1t : rt < t1
            · rw [if_pos h1t] at h1
              by_cases h2t : rt < t2
              · rw [if_pos h2t] at h2
                by_cases hs : m < size_mb_of doc
                · rw [if_pos hs] at h1 h2
                  cases hr1 : staleLoop t1 m ip rest with
                  | none => rw [hr1] at h1; exact absurd h1 (by simp)
                  | some l1' =>
                      cases hr2 : staleLoop t2 m ip rest with
                      | none => rw [hr2] at h2; exact absurd h2 (by simp)
                      | some l2' =>
                          rw [hr1] at h1
                          rw [hr2] at h2
                          simp only [Option.map_some', Option.some.injEq] at h1 h2
                          subst h1
                          subst h2
                          simpa using Nat.succ_le_succ (ih l1' l2' hr1 hr2)
                · rw [if_neg hs] at h1 h2
                  exact ih l1 l2 h1 h2
              · rw [if_neg h2t] at h2
                by_cases hs : m < size_mb_of doc
                · rw [if_pos hs] at h1
                  cases hr1 : staleLoop t1 m ip rest with
                  | none => rw [hr1] at h1; exact absurd h1 (by simp)
                  | some l1' =>
                      rw [hr1] at h1
                      simp only [Option.map_some', Option.some.injEq] at h1
                      subst h1
                      have hle := ih l1' l2 hr1 h2
                      simpa using Nat.le_succ_of_le hle
                · rw [if_neg hs] at h1
                  exact ih l1 l2 h1 h2
            · have h2t : ¬ rt < t2 := fun hcon => h1t (lt_of_lt_of_le hcon hT)
              rw [if_neg h1t] at h1
              rw [if_neg h2t] at h2
              exact ih l1 l2 h1 h2
      · rw [if_neg hp] at h1 h2
        exact ih l1 l2 h1 h2

/-- Raising the size floor can only shrink the number of emitted candidates
(both runs assumed to finish without a parse error). -/
lemma staleLoop_min_mono (t : Int) (m1 m2 : ℚ) (ip : Bool) (hM : m1 ≤ m2) :
    ∀ (docs : List Doc) (l1 l2 : List StaleCandidate),
      staleLoop t m1 ip docs = some l1 → staleLoop t m2 ip docs = some l2 →
      l2.length ≤ l1.length := by
  intro docs
  induction docs with
  | nil =>
      intro l1 l2 h1 h2
      simp only [staleLoop, Option.some.injEq] at h1 h2
      subst h1
      subst h2
      exact Nat.le_refl _
  | cons doc rest ih =>
      intro l1 l2 h1 h2
      simp only [staleLoop] at h1 h2
      by_cases hp : pubPass doc.published ip = true
      · rw [if_pos hp] at h1 h2
        cases hrt : reloadTimeOf doc with
        | none => rw [hrt] at h1; exact absurd h1 (by simp)
        | some rt =>
            simp only [hrt] at h1 h2
            by_cases hlt : rt < t
            · rw [if_pos hlt] at h1 h2
              by_cases hs2 : m2 < size_mb_of doc
              · have hs1 : m1 < size_mb_of doc := lt_of_le_of_lt hM hs2
                rw [if_pos hs1] at h1
                rw [if_pos hs2] at h2
                cases hr1 : staleLoop t m1 ip rest with
                | none => rw [hr1] at h1; exact absurd h1 (by simp)
                | some l1' =>
                    cases hr2 : staleLoop t m2 ip rest with
                    | none => rw [hr2] at h2; exact absurd h2 (by simp)
                    | some l2' =>
                        rw [hr1] at h1
                        rw [hr2] at h2
                        simp only [Option.map_some', Option.some.injEq] at h1 h2
                        subst h1
                        subst h2
                        simpa using Nat.succ_le_succ (ih l1' l2' hr1 hr2)
              · rw [if_neg hs2] at h2
                by_cases hs1 : m1 < size_mb_of doc
                · rw [if_pos hs1] at h1
                  cases hr1 : staleLoop t m1 ip rest with
                  | none => rw [hr1] at h1; exact absurd h1 (by simp)
                  | some l1' =>
                      rw [hr1] at h1
                      simp only [Option.map_some', Option.some.injEq] at h1
                      subst h1
                      have hle := ih l1' l2 hr1 h2
                      simpa using Nat.le_succ_of_le hle
                · rw [if_neg hs1] at h1
                  exact ih l1 l2 h1 h2
            · rw [if_neg hlt] at h1 h2
              exact ih l1 l2 h1 h2
      · rw [if_neg hp] at h1 h2
        exact ih l1 l2 h1 h2

/-- Enabling `include_published` widens the publication filter, so the run
with the flag set emits at least as many candidates (both runs assumed to
finish without a parse error). -/
lemma staleLoop_ip_mono (t : Int) (m : ℚ) :
    ∀ (docs : List Doc) (l1 l2 : List StaleCandidate),
      staleLoop t m false docs = some l1 → staleLoop t m true docs = some l2 →
      l1.length ≤ l2.length := by
  intro docs
  induction docs with
  | nil =>
      intro l1 l2 h1 h2
      simp only [staleLoop, Option.some.injEq] at h1 h2
      subst h1
      subst h2
      exact Nat.le_refl _
  | cons doc rest ih =>
      intro l1 l2 h1 h2
      simp only [staleLoop] at h1 h2
      by_cases hpf : pubPass doc.published false = true
      · have hpt : pubPass doc.published true = true := pubPass_false_imp_true _ hpf
        rw [if_pos hpf] at h1
        rw [if_pos hpt] at h2
        cases hrt : reloadTimeOf doc with
        | none => rw [hrt] at h1; exact absurd h1 (by simp)
        | some rt =>
            simp only [hrt] at h1 h2
            by_cases hlt : rt < t
            · rw [if_pos hlt] at h1 h2
              by_cases hs : m < size_mb_of doc
              · rw [if_pos hs] at h1 h2
                cases hr1 : staleLoop t m false rest with
                | none => rw [hr1] at h1; exact absurd h1 (by simp)
                | some l1' =>
                    cases hr2 : staleLoop t m true rest with
                    | none => rw [hr2] at h2; exact absurd h2 (by simp)
                    | some l2' =>
                        rw [hr1] at h1
                        rw [hr2] at h2
                        simp only [Option.map_some', Option.some.injEq] at h1 h2
                        subst h1
                        subst h2
                        simpa using Nat.succ_le_succ (ih l1' l2' hr1 hr2)
              · rw [if_neg hs] at h1 h2
                exact ih l1 l2 h1 h2
            · rw [if_neg hlt] at h1 h2
              exact ih l1 l2 h1 h2
      · rw [if_neg hpf] at h1
        by_cases hpt : pubPass doc.published true = true
        · rw [if_pos hpt] at h2
          cases hrt : reloadTimeOf doc with
          | none => rw [hrt] at h2; exact absurd h2 (by simp)
          | some rt =>
              simp only [hrt] at h2
              by_cases hlt : rt < t
              · rw [if_pos hlt] at h2
                by_cases hs : m < size_mb_of doc
                · rw [if_pos hs] at h2
                  cases hr2 : staleLoop t m true rest with
                  | none => rw [hr2] at h2; exact absurd h2 (by simp)
                  | some l2' =>
                      rw [hr2] at h2
                      simp only [Option.map_some', Option.some.injEq] at h2
                      subst h2
                      have hle := ih l1 l2' h1 hr2
                      simpa using Nat.le_succ_of_le hle
                · rw [if_neg hs] at h2
                  exact ih l1 l2 h1 h2
              · rw [if_neg hlt] at h2
                exact ih l1 l2 h1 h2
        · rw [if_neg hpt] at h2
          exact ih l1 l2 h1 h2

/-- C3: for a fixed catalog and evaluation instant, increasing `days_stale`
never increases the candidate count, increasing `min_mb` never increases the
candidate count, and switching `include_published` from false to true never
decreases the candidate count (runs compared when both return a list). -/
theorem stale_apps_monotone :
    (∀ (now : Int) (apps : List Doc) (d1 d2 : Int) (m : ℚ) (ip : Bool)
        (l1 l2 : List StaleCandidate), d1 ≤ d2 →
        stale_apps now apps d1 m ip = some l1 →
        stale_apps now apps d2 m ip = some l2 → l2.length ≤ l1.length)
    ∧ (∀ (now : Int) (apps : List Doc) (d : Int) (m1 m2 : ℚ) (ip : Bool)
        (l1 l2 : List StaleCandidate), m1 ≤ m2 →
        stale_apps now apps d m1 ip = some l1 →
        stale_apps now apps d m2 ip = some l2 → l2.length ≤ l1.length)
    ∧ (∀ (now : Int) (apps : List Doc) (d : Int) (m : ℚ)
        (l1 l2 : List StaleCandidate),
        stale_apps now apps d m false = some l1 →
        stale_apps now apps d m true = some l2 → l1.length ≤ l2.length) := by
  refine ⟨?_, ?_, ?_⟩
  · intro now apps d1 d2 m ip l1 l2 hd h1 h2
    have hMul : d1 * usPerDay ≤ d2 * usPerDay := by
      have hpos : (0 : Int) ≤ usPerDay := by decide
      exact mul_le_mul_of_nonneg_right hd hpos
    have hT : now - d2 * usPerDay ≤ now - d1 * usPerDay := by omega
    exact staleLoop_threshold_mono _ _ m ip hT apps l1 l2 h1 h2
  · intro now apps d m1 m2 ip l1 l2 hm h1 h2
    exact staleLoop_min_mono _ m1 m2 ip hm apps l1 l2 h1 h2
  · intro now apps d m l1 l2 h1 h2
    exact staleLoop_ip_mono _ m apps l1 l2 h1 h2

/-- C3 witness: widening the staleness window from 180 to 200 days on the
singleton catalog `[docA]` drops the candidate; the count cannot increase. -/
theorem stale_apps_monotone_witness :
    (List.length ([] : List StaleCandidate)) ≤
      [mkCandidate docA 1609459200000000].length :=
  stale_apps_monotone.1 nowJul20 [docA] 180 200 1 false
    [mkCandidate docA 1609459200000000] [] (by decide) (by decide) (by decide)
